import Mathlib

/-!
Verification of the quay service-filtering core (`src/main.go`).

The Go program is embedded shallowly:

* `strconv.ParseUint` / `strconv.Atoi` become `goParseUint` / `goAtoi`
  (digit-by-digit accumulation with the same per-step range checks that
  the Go standard library performs; the sign branch of `Atoi` is never
  reachable at its call sites here, which only feed it regex-matched
  digit strings).
* Go maps (`types.Services`, the include/exclude membership maps) become
  association lists with unique keys, iterated in insertion order — one
  realizable iteration order of a Go map — with first-match `lookupA`
  and in-place `setKey` assignment.
* `filterServices`, `applyPortMappings`, `parsePortMapping` and
  `parseRemainingArgs` are translated function by function.
* The I/O shell of `run` (file probing, project loading, spawning
  `docker-compose`) is abstracted into an event trace (`RunEvent`), so
  ordering properties such as "fails before any load" are statable.
-/

/-- `c` is an ASCII decimal digit (what Go's regexp `\d` matches). -/
def isDigitChar (c : Char) : Bool := '0' ≤ c && c ≤ '9'

/-- Numeric value of a digit list, most significant first
(`foldl (n * 10 + digit)`), as Go's `strconv` accumulates it. -/
def digitsToNat (l : List Char) : Nat :=
  l.foldl (fun n c => n * 10 + (c.toNat - 48)) 0

/-- Non-empty string made only of ASCII digits (the regexp `\d+`). -/
def isDigitStr (s : String) : Bool :=
  !s.data.isEmpty && s.data.all isDigitChar

/-- Outcome of Go's `strconv` parsers: a value, a range error
(`ErrRange`, which in Go is returned together with the saturated value),
or a syntax error (returned together with `0`). -/
inductive GoParseResult where
  | ok (v : Nat)
  | rangeErr
  | syntaxErr
  deriving Repr, DecidableEq

/-- The digit loop of Go's `strconv.ParseUint` (base 10): consume a digit,
fail with `ErrRange` as soon as the accumulator would exceed `maxVal`,
fail with a syntax error on a non-digit character. -/
def goParseUintStep (maxVal : Nat) : List Char → Nat → GoParseResult
  | [], n => .ok n
  | c :: cs, n =>
    if isDigitChar c then
      let n1 := n * 10 + (c.toNat - 48)
      if n1 > maxVal then .rangeErr else goParseUintStep maxVal cs n1
    else .syntaxErr

/-- Go's `strconv.ParseUint(s, 10, bitSize)` with `maxVal = 2^bitSize - 1`;
the empty string is a syntax error. -/
def goParseUint (maxVal : Nat) (s : String) : GoParseResult :=
  if s.data.isEmpty then .syntaxErr else goParseUintStep maxVal s.data 0

/-- The value Go's `ParseUint` returns when the caller discards the error
(as `applyPortMappings` does with `_`): the parsed value on success, the
saturated `maxVal` on `ErrRange`, `0` on a syntax error. -/
def goParseUintVal (maxVal : Nat) (s : String) : Nat :=
  match goParseUint maxVal s with
  | .ok v => v
  | .rangeErr => maxVal
  | .syntaxErr => 0

/-- Go's `strconv.Atoi` on an unsigned numeral: parse as a 64-bit unsigned
integer, then reject values above `MaxInt64` with `ErrRange`. (`Atoi`
also accepts a leading sign, but every call site in the program feeds it
a string matched by `\d+`, so the sign branch is dead code here.) -/
def goAtoi (s : String) : GoParseResult :=
  match goParseUint 18446744073709551615 s with
  | .ok v => if v > 9223372036854775807 then .rangeErr else .ok v
  | e => e

/-- `PortMapping` from src/main.go: a decoded `--port` override. -/
structure PortMapping where
  serviceName : String
  hostPort : String
  containerPort : String
  deriving Repr, DecidableEq

/-- Split a character list at every colon (what `strings.Split` on `:`
yields, over the string's characters). -/
def splitOnColon : List Char → List (List Char)
  | [] => [[]]
  | c :: cs =>
    let r := splitOnColon cs
    if c = ':' then [] :: r
    else
      match r with
      | [] => [[c]]
      | h :: t => (c :: h) :: t

/-- Matching of the regexp `^([^:]+):(\d+):(\d+)$` from `parsePortMapping`.
Since no group may contain a colon, a string matches exactly when
splitting it on `:` yields three parts with the first non-empty and the
other two non-empty digit strings; the three groups are that split. -/
def portMappingRegexMatch (s : String) : Option (String × String × String) :=
  match splitOnColon s.data with
  | [a, b, c] =>
    if !a.isEmpty && isDigitStr ⟨b⟩ && isDigitStr ⟨c⟩ then
      some (⟨a⟩, ⟨b⟩, ⟨c⟩)
    else none
  | _ => none

/-- `parsePortMapping` from src/main.go: regexp match, then `Atoi`
validation of the two port fields. -/
def parsePortMapping (mapping : String) : Except String PortMapping :=
  match portMappingRegexMatch mapping with
  | none => .error "invalid format, expected SERVICE:HOST_PORT:CONTAINER_PORT"
  | some (serviceName, hostPort, containerPort) =>
    match goAtoi hostPort with
    | .ok _ =>
      match goAtoi containerPort with
      | .ok _ => .ok ⟨serviceName, hostPort, containerPort⟩
      | _ => .error ("invalid container port: " ++ containerPort)
    | _ => .error ("invalid host port: " ++ hostPort)

/-- Result of `parseRemainingArgs` from src/main.go, together with the
warnings it prints for malformed `--port` tokens. -/
structure ParsedArgs where
  cmdOptions : List String
  includeServices : List String
  excludeServices : List String
  portMappings : List PortMapping
  warnings : List String
  deriving Repr, DecidableEq

/-- `parseRemainingArgs` from src/main.go: left-to-right scan; a
directive token (`--include`, `--exclude`, `--port`) followed by another
token consumes both; a malformed `--port` argument is warned about and
skipped; every other token — including a directive that is the final
token — goes to `cmdOptions`. -/
def parseRemainingArgs : List String → ParsedArgs
  | [] => ⟨[], [], [], [], []⟩
  | a :: rest =>
    match rest with
    | [] =>
      -- `i+1 < len(args)` fails for every directive: the token, directive
      -- or not, falls through to the else branch and joins `cmdOptions`.
      let r := parseRemainingArgs []
      { r with cmdOptions := a :: r.cmdOptions }
    | v :: rest' =>
      if a = "--include" then
        let r := parseRemainingArgs rest'
        { r with includeServices := v :: r.includeServices }
      else if a = "--exclude" then
        let r := parseRemainingArgs rest'
        { r with excludeServices := v :: r.excludeServices }
      else if a = "--port" then
        let r := parseRemainingArgs rest'
        match parsePortMapping v with
        | .error e =>
          { r with warnings :=
              ("Warning: Invalid port mapping format '" ++ v ++ "': " ++ e) :: r.warnings }
        | .ok pm => { r with portMappings := pm :: r.portMappings }
      else
        let r := parseRemainingArgs (v :: rest')
        { r with cmdOptions := a :: r.cmdOptions }

/-- `types.ServicePortConfig`, restricted to the fields the program
touches: `Published` (a string), `Target` (a `uint32`, kept as a `Nat`
that every producer bounds by `2^32 - 1` explicitly), `Protocol`. -/
structure ServicePortConfig where
  published : String
  target : Nat
  protocol : String
  deriving Repr, DecidableEq

/-- `types.ServiceConfig`: opaque to the core except for `Ports`; every
field the core never reads or writes is collapsed into `rest`. -/
structure ServiceConfig where
  ports : List ServicePortConfig
  rest : String
  deriving Repr, DecidableEq

/-- First-match lookup in an association list — the map read
`project.Services[name]`. -/
def lookupA {α : Type} : List (String × α) → String → Option α
  | [], _ => none
  | (k, v) :: rest, n => if k = n then some v else lookupA rest n

/-- Map assignment `m[k] = v`: replace the first binding of `k` in
place, or append a new one. -/
def setKey {α : Type} : List (String × α) → String → α → List (String × α)
  | [], k, v => [(k, v)]
  | (k', v') :: rest, k, v =>
    if k' = k then (k, v) :: rest else (k', v') :: setKey rest k v

/-- Building a `map[string]bool` set from a list (`includeMap`,
`excludeMap` in `filterServices`): the key set in insertion order, first
occurrence kept. -/
def insertKey (l : List String) (k : String) : List String :=
  if k ∈ l then l else l ++ [k]

/-- The keys of the membership map built from `ss` (deduplicated,
insertion order). -/
def keysOfList (ss : List String) : List String := ss.foldl insertKey []

/-- `types.Project`: the `Services` map (association list with unique
keys, iterated in insertion order) plus the top-level sections the core
copies through untouched. -/
structure Project where
  name : String
  services : List (String × ServiceConfig)
  networks : String
  volumes : String
  rest : String
  deriving Repr, DecidableEq

/-- `filterServices` from src/main.go. The Go loop over the services map
inserts into `filteredServices` each entry passing the mode test and
deletes every matched name from the corresponding missing-names map;
over a uniquely-keyed association list iterated in insertion order this
is the `filter` below, and the final iteration over the two missing maps
reports their remaining keys in insertion order, include names first. -/
def filterServices (project : Project)
    (includeServices excludeServices : List String) : Project × List String :=
  let includeKeys := keysOfList includeServices
  let excludeKeys := keysOfList excludeServices
  let usingIncludeMode := 0 < includeServices.length
  let filteredServices :=
    if usingIncludeMode then
      project.services.filter (fun p => includeKeys.contains p.1)
    else
      project.services.filter (fun p => !excludeKeys.contains p.1)
  let missingIncludeServices :=
    if usingIncludeMode then
      includeKeys.filter (fun n => (lookupA project.services n).isNone)
    else includeKeys
  let missingExcludeServices :=
    if usingIncludeMode then excludeKeys
    else excludeKeys.filter (fun n => (lookupA project.services n).isNone)
  let missingServices := missingIncludeServices ++ missingExcludeServices
  ({ project with services := filteredServices }, missingServices)

/-- The indexed loop with `break` inside `applyPortMappings`: update the
`Published` field of the first binding whose `Target` equals the parsed
container port; `none` when no binding matches (`portUpdated = false`). -/
def updatePortsLoop (hostPort : String) (cp : Nat) :
    List ServicePortConfig → Option (List ServicePortConfig)
  | [] => none
  | p :: ps =>
    if p.target = cp then some ({ p with published := hostPort } :: ps)
    else
      match updatePortsLoop hostPort cp ps with
      | some ps' => some (p :: ps')
      | none => none

/-- The combined effect of the loop-with-`break` and the
`if !portUpdated` append in `applyPortMappings`: update the first
binding targeting `cp`, or append a fresh `tcp` binding. -/
def updateOrAppendPorts (hostPort : String) (cp : Nat)
    (ports : List ServicePortConfig) : List ServicePortConfig :=
  match updatePortsLoop hostPort cp ports with
  | some updated => updated
  | none => ports ++ [⟨hostPort, cp, "tcp"⟩]

/-- `applyPortMappings` from src/main.go: for each mapping, a missing
service is recorded and skipped; otherwise the container port string is
parsed with `ParseUint(·, 10, 32)` (error discarded, so out-of-range
values saturate to `2^32 - 1` and garbage becomes `0`), the first
binding with that target is updated in place, or a new `tcp` binding is
appended, and the service is stored back into the map. -/
def applyPortMappings (project : Project) :
    List PortMapping → Project × List String
  | [] => (project, [])
  | m :: ms =>
    match lookupA project.services m.serviceName with
    | none =>
      let r := applyPortMappings project ms
      (r.1, m.serviceName :: r.2)
    | some service =>
      let containerPortUint32 := goParseUintVal 4294967295 m.containerPort
      let newPort : ServicePortConfig := ⟨m.hostPort, containerPortUint32, "tcp"⟩
      let ports' :=
        match updatePortsLoop m.hostPort containerPortUint32 service.ports with
        | some updated => updated
        | none => service.ports ++ [newPort]
      let project' :=
        { project with
            services := setKey project.services m.serviceName
              { service with ports := ports' } }
      applyPortMappings project' ms

/-- `findComposeFile` from src/main.go, with `os.Stat` abstracted into a
file-existence oracle. -/
def findComposeFile (fileExists : String → Bool) (specifiedFile : String) :
    Except String String :=
  if specifiedFile ≠ "" then .ok specifiedFile
  else if fileExists "docker-compose.yml" then .ok "docker-compose.yml"
  else if fileExists "docker-compose.yaml" then .ok "docker-compose.yaml"
  else .error "no docker-compose file found"

/-- The externally visible stages of `run` after argument
classification: probing for the compose file (`findComposeFile`),
loading the topology (`LoadProject`), spawning the `docker-compose`
child process. -/
inductive RunEvent where
  | probedComposeFile
  | loadedTopology
  | spawnedChild
  deriving Repr, DecidableEq

/-- `run` from src/main.go, with its I/O collaborators abstracted: the
returned trace lists which pipeline stages were reached, in order.
Loading and the child process are assumed to succeed — the claims
settled against this model only concern what happens before they are
attempted. An empty argument list prints usage and exits without
touching any of the three stages. -/
def runModel (fileExists : String → Bool) (composeFileFlag : String)
    (args : List String) : List RunEvent × Except String Unit :=
  match args with
  | [] => ([], .ok ())
  | _composeCmd :: rest =>
    let r := parseRemainingArgs rest
    if r.includeServices ≠ [] ∧ r.excludeServices ≠ [] then
      ([], .error "cannot use both --include and --exclude options together")
    else
      match findComposeFile fileExists composeFileFlag with
      | .error e => ([.probedComposeFile], .error e)
      | .ok _path =>
        if r.includeServices = [] ∧ r.excludeServices = [] ∧ r.portMappings = [] then
          ([.probedComposeFile, .spawnedChild], .ok ())
        else
          ([.probedComposeFile, .loadedTopology, .spawnedChild], .ok ())

/-! ### Association-list and key-set lemmas -/

theorem mem_insertKey {l : List String} {k a : String} :
    a ∈ insertKey l k ↔ a ∈ l ∨ a = k := by
  by_cases h : k ∈ l
  · simp only [insertKey, if_pos h]
    constructor
    · exact Or.inl
    · rintro (ha | rfl)
      · exact ha
      · exact h
  · simp [insertKey, h]

theorem mem_keysOfList_gen (ss : List String) (acc : List String) (a : String) :
    a ∈ ss.foldl insertKey acc ↔ a ∈ acc ∨ a ∈ ss := by
  induction ss generalizing acc with
  | nil => simp
  | cons s ss ih =>
    rw [List.foldl_cons, ih, mem_insertKey, List.mem_cons]
    tauto

theorem mem_keysOfList {ss : List String} {a : String} :
    a ∈ keysOfList ss ↔ a ∈ ss := by
  unfold keysOfList
  rw [mem_keysOfList_gen]
  simp

theorem lookupA_filter_key {α : Type} (f : String → Bool)
    (l : List (String × α)) (n : String) :
    lookupA (l.filter fun p => f p.1) n = if f n then lookupA l n else none := by
  induction l with
  | nil => simp [lookupA]
  | cons p rest ih =>
    obtain ⟨k, v⟩ := p
    simp only [List.filter_cons]
    by_cases hk : k = n
    · subst hk
      by_cases hf : f k
      · simp [hf, lookupA]
      · simp [hf, lookupA, ih]
    · by_cases hf : f k
      · simp [hf, lookupA, hk, ih]
      · simp [hf, lookupA, hk, ih]

theorem lookupA_setKey {α : Type} (l : List (String × α)) (k : String) (v : α)
    (n : String) :
    lookupA (setKey l k v) n = if k = n then some v else lookupA l n := by
  induction l with
  | nil => simp [setKey, lookupA]
  | cons p rest ih =>
    obtain ⟨k', v'⟩ := p
    by_cases h : k' = k
    · subst h
      by_cases hn : k' = n <;> simp [setKey, lookupA, hn]
    · by_cases hn : k' = n
      · subst hn
        have : ¬k = k' := fun hc => h hc.symm
        simp [setKey, lookupA, h, this]
      · simp [setKey, lookupA, h, hn, ih]

/-! ### Selection-engine theorems -/

/-- C1: in include mode (non-empty `includeNames`, empty `excludeNames`)
the filtered service mapping contains exactly the services whose name is
both in `includeNames` and in the topology (with their original
definitions), and `missingNames` contains exactly the names of
`includeNames` absent from the topology; for an empty topology this
makes every included name missing and the mapping empty, without
error. -/
theorem filterServices_include_spec (t : Project) (L : List String) (hL : L ≠ []) :
    (∀ n, lookupA (filterServices t L []).1.services n =
        if n ∈ L then lookupA t.services n else none) ∧
    (∀ n, n ∈ (filterServices t L []).2 ↔ n ∈ L ∧ lookupA t.services n = none) := by
  have hlen : 0 < L.length := List.length_pos.mpr hL
  constructor
  · intro n
    have h1 : (filterServices t L []).1.services =
        t.services.filter (fun p => (keysOfList L).contains p.1) := by
      simp [filterServices, hlen]
    rw [h1, lookupA_filter_key (fun a => (keysOfList L).contains a)]
    by_cases hn : n ∈ L
    · have hc : (keysOfList L).contains n = true := by
        simp [mem_keysOfList, hn]
      simp [hc, hn, mem_keysOfList]
    · have hc : ¬((keysOfList L).contains n = true) := by
        simp [mem_keysOfList, hn]
      simp [hc, hn, mem_keysOfList]
  · intro n
    have h2 : (filterServices t L []).2 =
        (keysOfList L).filter (fun m => (lookupA t.services m).isNone) := by
      simp [filterServices, hlen, keysOfList]
    rw [h2, List.mem_filter, mem_keysOfList, Option.isNone_iff_eq_none]

/-- Closed instance discharging the hypothesis of
`filterServices_include_spec` on the services {a, b, c} with
`includeNames = [a, c, z]` (the spec's P2 scenario). -/
theorem filterServices_include_spec_witness :
    (["a", "c", "z"] : List String) ≠ [] ∧
    ((∀ n, lookupA (filterServices
          ⟨"p", [("a", ⟨[], "ra"⟩), ("b", ⟨[], "rb"⟩), ("c", ⟨[], "rc"⟩)], "nw", "vl", "rs"⟩
          ["a", "c", "z"] []).1.services n =
        if n ∈ (["a", "c", "z"] : List String)
        then lookupA [("a", (⟨[], "ra"⟩ : ServiceConfig)), ("b", ⟨[], "rb"⟩), ("c", ⟨[], "rc"⟩)] n
        else none) ∧
     (∀ n, n ∈ (filterServices
          ⟨"p", [("a", ⟨[], "ra"⟩), ("b", ⟨[], "rb"⟩), ("c", ⟨[], "rc"⟩)], "nw", "vl", "rs"⟩
          ["a", "c", "z"] []).2 ↔
        n ∈ (["a", "c", "z"] : List String) ∧
        lookupA [("a", (⟨[], "ra"⟩ : ServiceConfig)), ("b", ⟨[], "rb"⟩), ("c", ⟨[], "rc"⟩)] n = none)) :=
  ⟨by decide,
   filterServices_include_spec
     ⟨"p", [("a", ⟨[], "ra"⟩), ("b", ⟨[], "rb"⟩), ("c", ⟨[], "rc"⟩)], "nw", "vl", "rs"⟩
     ["a", "c", "z"] (by decide)⟩

/-- C2: in exclude mode (empty `includeNames`, non-empty `excludeNames`)
the filtered service mapping contains exactly the topology's services
whose name is not in `excludeNames`, and `missingNames` contains exactly
the names of `excludeNames` absent from the topology. -/
theorem filterServices_exclude_spec (t : Project) (E : List String) (hE : E ≠ []) :
    (∀ n, lookupA (filterServices t [] E).1.services n =
        if n ∈ E then none else lookupA t.services n) ∧
    (∀ n, n ∈ (filterServices t [] E).2 ↔ n ∈ E ∧ lookupA t.services n = none) := by
  constructor
  · intro n
    have h1 : (filterServices t [] E).1.services =
        t.services.filter (fun p => !(keysOfList E).contains p.1) := by
      simp [filterServices]
    rw [h1, lookupA_filter_key (fun a => !(keysOfList E).contains a)]
    by_cases hn : n ∈ E
    · have hc : (keysOfList E).contains n = true := by
        simp [mem_keysOfList, hn]
      simp [hc, hn, mem_keysOfList]
    · have hc : ¬((keysOfList E).contains n = true) := by
        simp [mem_keysOfList, hn]
      simp only [Bool.not_eq_true] at hc
      simp [hc, hn, mem_keysOfList]
  · intro n
    have h2 : (filterServices t [] E).2 =
        (keysOfList E).filter (fun m => (lookupA t.services m).isNone) := by
      simp [filterServices, keysOfList]
    rw [h2, List.mem_filter, mem_keysOfList, Option.isNone_iff_eq_none]

/-- Closed instance discharging the hypothesis of
`filterServices_exclude_spec` on the services {a, b, c} with
`excludeNames = [b, z]` (the spec's P3 scenario). -/
theorem filterServices_exclude_spec_witness :
    (["b", "z"] : List String) ≠ [] ∧
    ((∀ n, lookupA (filterServices
          ⟨"p", [("a", ⟨[], "ra"⟩), ("b", ⟨[], "rb"⟩), ("c", ⟨[], "rc"⟩)], "nw", "vl", "rs"⟩
          [] ["b", "z"]).1.services n =
        if n ∈ (["b", "z"] : List String)
        then none
        else lookupA [("a", (⟨[], "ra"⟩ : ServiceConfig)), ("b", ⟨[], "rb"⟩), ("c", ⟨[], "rc"⟩)] n) ∧
     (∀ n, n ∈ (filterServices
          ⟨"p", [("a", ⟨[], "ra"⟩), ("b", ⟨[], "rb"⟩), ("c", ⟨[], "rc"⟩)], "nw", "vl", "rs"⟩
          [] ["b", "z"]).2 ↔
        n ∈ (["b", "z"] : List String) ∧
        lookupA [("a", (⟨[], "ra"⟩ : ServiceConfig)), ("b", ⟨[], "rb"⟩), ("c", ⟨[], "rc"⟩)] n = none)) :=
  ⟨by decide,
   filterServices_exclude_spec
     ⟨"p", [("a", ⟨[], "ra"⟩), ("b", ⟨[], "rb"⟩), ("c", ⟨[], "rc"⟩)], "nw", "vl", "rs"⟩
     ["b", "z"] (by decide)⟩

/-- C5: `filterServices` copies every part of the topology other than
the service mapping — name, networks, volumes and the remaining
top-level sections — through unchanged, in every selection mode. -/
theorem filterServices_preserves_topLevel (t : Project)
    (includeServices excludeServices : List String) :
    (filterServices t includeServices excludeServices).1.name = t.name ∧
    (filterServices t includeServices excludeServices).1.networks = t.networks ∧
    (filterServices t includeServices excludeServices).1.volumes = t.volumes ∧
    (filterServices t includeServices excludeServices).1.rest = t.rest :=
  ⟨rfl, rfl, rfl, rfl⟩

/-! ### Digit-string lemmas for the strconv embedding -/

theorem le_foldl_digits (l : List Char) (a : Nat) :
    a ≤ l.foldl (fun n c => n * 10 + (c.toNat - 48)) a := by
  induction l generalizing a with
  | nil => exact Nat.le_refl a
  | cons c cs ih =>
    rw [List.foldl_cons]
    exact Nat.le_trans (by omega) (ih (a * 10 + (c.toNat - 48)))

theorem goParseUintStep_ok (maxVal : Nat) (l : List Char) (a : Nat)
    (hd : l.all isDigitChar = true)
    (hle : l.foldl (fun n c => n * 10 + (c.toNat - 48)) a ≤ maxVal) :
    goParseUintStep maxVal l a =
      .ok (l.foldl (fun n c => n * 10 + (c.toNat - 48)) a) := by
  induction l generalizing a with
  | nil => rfl
  | cons c cs ih =>
    rw [List.all_cons, Bool.and_eq_true] at hd
    rw [List.foldl_cons] at hle ⊢
    have hn1 : a * 10 + (c.toNat - 48) ≤ maxVal :=
      Nat.le_trans (le_foldl_digits cs _) hle
    rw [goParseUintStep, if_pos hd.1, if_neg (by omega)]
    exact ih _ hd.2 hle

theorem goParseUintStep_range (maxVal : Nat) (l : List Char) (a : Nat)
    (hd : l.all isDigitChar = true) (ha : a ≤ maxVal)
    (hgt : maxVal < l.foldl (fun n c => n * 10 + (c.toNat - 48)) a) :
    goParseUintStep maxVal l a = .rangeErr := by
  induction l generalizing a with
  | nil => exact absurd hgt (by simpa using Nat.not_lt.mpr ha)
  | cons c cs ih =>
    rw [List.all_cons, Bool.and_eq_true] at hd
    rw [List.foldl_cons] at hgt
    by_cases hn1 : maxVal < a * 10 + (c.toNat - 48)
    · rw [goParseUintStep, if_pos hd.1, if_pos hn1]
    · rw [goParseUintStep, if_pos hd.1, if_neg hn1]
      exact ih _ hd.2 (by omega) hgt

theorem goParseUint_digits (maxVal : Nat) (s : String) (hd : isDigitStr s = true) :
    goParseUint maxVal s =
      if digitsToNat s.data ≤ maxVal then .ok (digitsToNat s.data)
      else .rangeErr := by
  rw [isDigitStr, Bool.and_eq_true, Bool.not_eq_true'] at hd
  rw [goParseUint, if_neg (by simp [hd.1])]
  by_cases h : digitsToNat s.data ≤ maxVal
  · rw [if_pos h]
    exact goParseUintStep_ok maxVal s.data 0 hd.2 h
  · rw [if_neg h]
    exact goParseUintStep_range maxVal s.data 0 hd.2 (Nat.zero_le _)
      (lt_of_not_le h)

theorem goParseUintVal_digits (maxVal : Nat) (s : String)
    (hd : isDigitStr s = true) :
    goParseUintVal maxVal s =
      if digitsToNat s.data ≤ maxVal then digitsToNat s.data else maxVal := by
  rw [goParseUintVal, goParseUint_digits maxVal s hd]
  by_cases h : digitsToNat s.data ≤ maxVal
  · rw [if_pos h, if_pos h]
  · rw [if_neg h, if_neg h]

theorem goAtoi_digits (s : String) (hd : isDigitStr s = true) :
    goAtoi s =
      if digitsToNat s.data ≤ 9223372036854775807
      then .ok (digitsToNat s.data) else .rangeErr := by
  rw [goAtoi, goParseUint_digits 18446744073709551615 s hd]
  by_cases h : digitsToNat s.data ≤ 9223372036854775807
  · rw [if_pos (Nat.le_trans h (by norm_num)), if_pos h]
    simp [Nat.not_lt.mpr h]
  · rw [if_neg h]
    by_cases h2 : digitsToNat s.data ≤ 18446744073709551615
    · rw [if_pos h2]
      simp only []
      rw [if_pos (by omega)]
    · rw [if_neg h2]

/-! ### Port-mapping parser characterization -/

theorem portMappingRegexMatch_digits (tok a b c : String)
    (h : portMappingRegexMatch tok = some (a, b, c)) :
    isDigitStr b = true ∧ isDigitStr c = true := by
  unfold portMappingRegexMatch at h
  split at h
  · split at h
    · rename_i x y z _ hcond
      cases h
      simp only [Bool.and_eq_true] at hcond
      exact ⟨hcond.1.2, hcond.2⟩
    · cases h
  · cases h

theorem parsePortMapping_eq_ok (tok a b c : String)
    (h : portMappingRegexMatch tok = some (a, b, c))
    (hb : digitsToNat b.data ≤ 9223372036854775807)
    (hc : digitsToNat c.data ≤ 9223372036854775807) :
    parsePortMapping tok = .ok ⟨a, b, c⟩ := by
  obtain ⟨hdb, hdc⟩ := portMappingRegexMatch_digits tok a b c h
  simp only [parsePortMapping, h, goAtoi_digits b hdb, goAtoi_digits c hdc,
    if_pos hb, if_pos hc]

theorem parsePortMapping_ok_inv (tok : String) (pm : PortMapping)
    (h : parsePortMapping tok = .ok pm) :
    portMappingRegexMatch tok = some (pm.serviceName, pm.hostPort, pm.containerPort) ∧
    digitsToNat pm.hostPort.data ≤ 9223372036854775807 ∧
    digitsToNat pm.containerPort.data ≤ 9223372036854775807 := by
  cases hm : portMappingRegexMatch tok with
  | none => rw [parsePortMapping, hm] at h; cases h
  | some abc =>
    obtain ⟨a, b, c⟩ := abc
    obtain ⟨hdb, hdc⟩ := portMappingRegexMatch_digits tok a b c hm
    simp only [parsePortMapping, hm] at h
    cases hb : goAtoi b with
    | ok v1 =>
      simp only [hb] at h
      cases hc : goAtoi c with
      | ok v2 =>
        simp only [hc] at h
        cases h
        have hb' : digitsToNat b.data ≤ 9223372036854775807 := by
          by_contra hcon
          rw [goAtoi_digits b hdb, if_neg hcon] at hb
          cases hb
        have hc' : digitsToNat c.data ≤ 9223372036854775807 := by
          by_contra hcon
          rw [goAtoi_digits c hdc, if_neg hcon] at hc
          cases hc
        exact ⟨rfl, hb', hc'⟩
      | rangeErr => simp only [hc] at h; cases h
      | syntaxErr => simp only [hc] at h; cases h
    | rangeErr => simp only [hb] at h; cases h
    | syntaxErr => simp only [hb] at h; cases h

/-- The `--port` arm of the classifier on a malformed token: record a
warning, skip that single override, and process the remaining tokens
exactly as without it. -/
theorem parseRemainingArgs_port_error (v e : String) (rest : List String)
    (hv : parsePortMapping v = .error e) :
    parseRemainingArgs ("--port" :: v :: rest) =
      { parseRemainingArgs rest with
          warnings :=
            ("Warning: Invalid port mapping format '" ++ v ++ "': " ++ e) ::
              (parseRemainingArgs rest).warnings } := by
  simp only [parseRemainingArgs, hv]
  simp

/-- The claim that the parser accepts every token of the grammar
serviceName:digits:digits is false: this token matches the regexp, yet
`parsePortMapping` rejects it, because `strconv.Atoi` range-checks the
numeral 2^63 against the signed 64-bit maximum. -/
theorem parsePortMapping_rejects_digit_token :
    portMappingRegexMatch "web:1:9223372036854775808" =
      some ("web", "1", "9223372036854775808") ∧
    parsePortMapping "web:1:9223372036854775808" =
      .error "invalid container port: 9223372036854775808" := by
  constructor
  · rfl
  · rfl

/-- C7 (amended): `parsePortMapping` accepts a token exactly when it
matches the grammar serviceName:hostPort:containerPort (non-empty
colon-free service name, non-empty decimal digit port fields) AND both
port values are below 2^63 (`Atoi`'s signed 64-bit range check); a
token it rejects makes the argument classifier emit a warning, skip
that single override, and process the remaining tokens unchanged — the
run is not aborted. -/
theorem parsePortMapping_grammar_spec (tok v e : String) (rest : List String)
    (hv : parsePortMapping v = .error e) :
    ((∃ pm, parsePortMapping tok = .ok pm) ↔
      (∃ a b c, portMappingRegexMatch tok = some (a, b, c) ∧
        digitsToNat b.data < 9223372036854775808 ∧
        digitsToNat c.data < 9223372036854775808)) ∧
    parseRemainingArgs ("--port" :: v :: rest) =
      { parseRemainingArgs rest with
          warnings :=
            ("Warning: Invalid port mapping format '" ++ v ++ "': " ++ e) ::
              (parseRemainingArgs rest).warnings } := by
  refine ⟨⟨?_, ?_⟩, parseRemainingArgs_port_error v e rest hv⟩
  · rintro ⟨pm, hpm⟩
    obtain ⟨hm, hb, hc⟩ := parsePortMapping_ok_inv tok pm hpm
    exact ⟨pm.serviceName, pm.hostPort, pm.containerPort, hm, by omega, by omega⟩
  · rintro ⟨a, b, c, hm, hb, hc⟩
    exact ⟨⟨a, b, c⟩, parsePortMapping_eq_ok tok a b c hm (by omega) (by omega)⟩

/-- Closed instance discharging the hypothesis of
`parsePortMapping_grammar_spec` at the spec's own malformed token
web-8080-80. -/
theorem parsePortMapping_grammar_spec_witness :
    parsePortMapping "web-8080-80" =
      .error "invalid format, expected SERVICE:HOST_PORT:CONTAINER_PORT" ∧
    (((∃ pm, parsePortMapping "web:8080:80" = .ok pm) ↔
      (∃ a b c, portMappingRegexMatch "web:8080:80" = some (a, b, c) ∧
        digitsToNat b.data < 9223372036854775808 ∧
        digitsToNat c.data < 9223372036854775808)) ∧
     parseRemainingArgs ("--port" :: "web-8080-80" :: ["up"]) =
      { parseRemainingArgs ["up"] with
          warnings :=
            ("Warning: Invalid port mapping format '" ++ "web-8080-80" ++ "': " ++
              "invalid format, expected SERVICE:HOST_PORT:CONTAINER_PORT") ::
              (parseRemainingArgs ["up"]).warnings }) :=
  ⟨rfl,
   parsePortMapping_grammar_spec "web:8080:80" "web-8080-80"
     "invalid format, expected SERVICE:HOST_PORT:CONTAINER_PORT" ["up"] rfl⟩

/-- The claim that `missingNames` is sorted lexicographically is false:
with `includeNames = [z, a]` against an empty topology, `filterServices`
reports [z, a] — directive order, unsorted (the code never sorts). -/
theorem filterServices_missing_unsorted :
    (filterServices ⟨"p", [], "nw", "vl", "rs"⟩ ["z", "a"] []).2 = ["z", "a"] ∧
    ¬ List.Sorted (fun x y => x ≤ y)
        (filterServices ⟨"p", [], "nw", "vl", "rs"⟩ ["z", "a"] []).2 := by
  refine ⟨rfl, ?_⟩
  intro h
  rw [show (filterServices ⟨"p", [], "nw", "vl", "rs"⟩ ["z", "a"] []).2 = ["z", "a"]
    from rfl] at h
  have hza : ("z" : String) ≤ "a" := List.rel_of_sorted_cons h "a" (by simp)
  rw [String.le_iff_toList_le] at hza
  exact absurd hza (by decide)

/-- C8 (amended): the missing-names report is deterministic under the
embedding's fixed (insertion-order) map iteration — it is a sublist of
the deduplicated directive names, include names then exclude names, each
in first-occurrence order — but it is not sorted: the code never sorts
it. -/
theorem filterServices_missing_order (t : Project)
    (includeServices excludeServices : List String) :
    List.Sublist (filterServices t includeServices excludeServices).2
      (keysOfList includeServices ++ keysOfList excludeServices) := by
  by_cases h : 0 < includeServices.length
  · simp only [filterServices, if_pos h]
    exact List.Sublist.append (List.filter_sublist _) (List.Sublist.refl _)
  · simp only [filterServices, if_neg h]
    exact List.Sublist.append (List.Sublist.refl _) (List.filter_sublist _)

/-- The claim that a trailing directive raises a fatal error is false:
the classifier returns normally and passes the bare `--include` through
as a command option, with no warning recorded. -/
theorem parseRemainingArgs_trailingDirective_passthrough :
    parseRemainingArgs ["--include"] = ⟨["--include"], [], [], [], []⟩ := rfl

/-- C9 (amended): a directive token that ends the argument list without
its required argument (and is not itself consumed as the argument of a
preceding directive — the earlier tokens here are non-directives) is
appended verbatim to the pass-through command options; no error is
signalled and nothing is dropped. -/
theorem parseRemainingArgs_trailingDirective (pre : List String) (d : String)
    (hpre : ∀ t ∈ pre, t ≠ "--include" ∧ t ≠ "--exclude" ∧ t ≠ "--port")
    (hd : d = "--include" ∨ d = "--exclude" ∨ d = "--port") :
    parseRemainingArgs (pre ++ [d]) = ⟨pre ++ [d], [], [], [], []⟩ := by
  clear hd
  induction pre with
  | nil => rfl
  | cons a pre ih =>
    obtain ⟨h1, h2, h3⟩ := hpre a (List.mem_cons_self a pre)
    have ih' := ih (fun t ht => hpre t (List.mem_cons_of_mem a ht))
    rw [List.cons_append]
    cases hp : pre ++ [d] with
    | nil => exact absurd hp (by simp)
    | cons b bs =>
      simp only [parseRemainingArgs]
      rw [if_neg h1, if_neg h2, if_neg h3, ← hp, ih']

/-- Closed instance discharging the hypotheses of
`parseRemainingArgs_trailingDirective` at `up --include`. -/
theorem parseRemainingArgs_trailingDirective_witness :
    (∀ t ∈ (["up"] : List String),
      t ≠ "--include" ∧ t ≠ "--exclude" ∧ t ≠ "--port") ∧
    ("--include" = "--include" ∨ "--include" = "--exclude" ∨
      "--include" = "--port") ∧
    parseRemainingArgs (["up"] ++ ["--include"]) =
      ⟨["up"] ++ ["--include"], [], [], [], []⟩ :=
  ⟨by decide, by decide,
   parseRemainingArgs_trailingDirective ["up"] "--include" (by decide)
     (by decide)⟩

/-! ### Run-pipeline ordering -/

/-- C3: when classifying the arguments after the sub-command yields both
a non-empty include list and a non-empty exclude list, `run` returns the
configuration error with an empty event trace: the compose file is never
probed, no topology is loaded and no child process is spawned. -/
theorem run_mutualExclusion_failsBeforeAnyEffect
    (fileExists : String → Bool) (composeFileFlag : String)
    (composeCmd : String) (rest : List String)
    (hinc : (parseRemainingArgs rest).includeServices ≠ [])
    (hexc : (parseRemainingArgs rest).excludeServices ≠ []) :
    runModel fileExists composeFileFlag (composeCmd :: rest) =
      ([], .error "cannot use both --include and --exclude options together") := by
  simp [runModel, hinc, hexc]

/-- Closed instance discharging the hypotheses of
`run_mutualExclusion_failsBeforeAnyEffect` at
`up --include a --exclude b`. -/
theorem run_mutualExclusion_failsBeforeAnyEffect_witness :
    (parseRemainingArgs ["--include", "a", "--exclude", "b"]).includeServices ≠ [] ∧
    (parseRemainingArgs ["--include", "a", "--exclude", "b"]).excludeServices ≠ [] ∧
    runModel (fun _ => true) "" ("up" :: ["--include", "a", "--exclude", "b"]) =
      ([], .error "cannot use both --include and --exclude options together") :=
  ⟨by decide, by decide,
   run_mutualExclusion_failsBeforeAnyEffect (fun _ => true) "" "up"
     ["--include", "a", "--exclude", "b"] (by decide) (by decide)⟩

/-! ### Port-override applier lemmas -/

theorem applyPortMappings_cons_none (proj : Project) (m : PortMapping)
    (ms : List PortMapping)
    (h : lookupA proj.services m.serviceName = none) :
    applyPortMappings proj (m :: ms) =
      ((applyPortMappings proj ms).1,
        m.serviceName :: (applyPortMappings proj ms).2) := by
  simp [applyPortMappings, h]

theorem applyPortMappings_cons_some (proj : Project) (m : PortMapping)
    (ms : List PortMapping) (service : ServiceConfig)
    (h : lookupA proj.services m.serviceName = some service) :
    applyPortMappings proj (m :: ms) =
      applyPortMappings
        { proj with
            services := setKey proj.services m.serviceName
              { service with ports :=
                  (updateOrAppendPorts m.hostPort
                    (goParseUintVal 4294967295 m.containerPort) service.ports) } }
        ms := by
  simp [applyPortMappings, updateOrAppendPorts, h]

/-- `applyPortMappings` only rewrites ports of services already present:
a name absent from the services map stays absent. -/
theorem lookupA_applyPortMappings_none (ms : List PortMapping) (proj : Project)
    (n : String) (h : lookupA proj.services n = none) :
    lookupA (applyPortMappings proj ms).1.services n = none := by
  induction ms generalizing proj with
  | nil => exact h
  | cons m ms ih =>
    cases hside : lookupA proj.services m.serviceName with
    | none =>
      rw [applyPortMappings_cons_none proj m ms hside]
      exact ih proj h
    | some service =>
      rw [applyPortMappings_cons_some proj m ms service hside]
      apply ih
      rw [lookupA_setKey]
      by_cases he : m.serviceName = n
      · subst he
        rw [hside] at h
        exact absurd h (by simp)
      · simp [he, h]

/-- Every override in the list whose service is absent contributes its
name to the missing report, wherever it sits in the list. -/
theorem mem_applyPortMappings_missing (ms : List PortMapping) (proj : Project) :
    ∀ m' ∈ ms, lookupA proj.services m'.serviceName = none →
      m'.serviceName ∈ (applyPortMappings proj ms).2 := by
  induction ms generalizing proj with
  | nil => intro m' hm'; exact absurd hm' (List.not_mem_nil m')
  | cons m ms ih =>
    intro m' hm' h'
    cases hside : lookupA proj.services m.serviceName with
    | none =>
      rw [applyPortMappings_cons_none proj m ms hside]
      rcases List.mem_cons.mp hm' with rfl | hmem
      · exact List.mem_cons_self _ _
      · exact List.mem_cons_of_mem _ (ih proj m' hmem h')
    | some service =>
      rcases List.mem_cons.mp hm' with rfl | hmem
      · rw [hside] at h'
        cases h'
      · rw [applyPortMappings_cons_some proj m ms service hside]
        apply ih _ m' hmem
        rw [lookupA_setKey]
        by_cases he : m.serviceName = m'.serviceName
        · rw [he] at hside
          rw [hside] at h'
          cases h'
        · simp [he, h']

/-- When no binding targets `cp`, the update loop finds nothing
(`portUpdated` stays false). -/
theorem updatePortsLoop_none (hostPort : String) (cp : Nat)
    (ports : List ServicePortConfig)
    (h : ∀ p ∈ ports, p.target ≠ cp) :
    updatePortsLoop hostPort cp ports = none := by
  induction ports with
  | nil => rfl
  | cons p ps ih =>
    simp only [updatePortsLoop]
    rw [if_neg (h p (List.mem_cons_self p ps)),
      ih (fun q hq => h q (List.mem_cons_of_mem p hq))]

/-- When the first binding targeting `cp` sits at index `i`, the update
loop replaces exactly that binding's published port, in place, keeping
its target and protocol and every other binding untouched. -/
theorem updatePortsLoop_found (hostPort : String) (cp : Nat)
    (ports : List ServicePortConfig) (i : Nat) (hi : i < ports.length)
    (htgt : (ports.get ⟨i, hi⟩).target = cp)
    (hleast : ∀ j (hj : j < i), (ports.get ⟨j, Nat.lt_trans hj hi⟩).target ≠ cp) :
    updatePortsLoop hostPort cp ports =
      some (ports.set i { ports.get ⟨i, hi⟩ with published := hostPort }) := by
  induction ports generalizing i with
  | nil => exact absurd hi (Nat.not_lt_zero i)
  | cons p ps ih =>
    cases i with
    | zero =>
      have htgt0 : p.target = cp := htgt
      simp only [updatePortsLoop]
      rw [if_pos htgt0]
      rfl
    | succ j =>
      have hp : p.target ≠ cp := hleast 0 (Nat.succ_pos j)
      have hj : j < ps.length := Nat.lt_of_succ_lt_succ hi
      have htgt' : (ps.get ⟨j, hj⟩).target = cp := htgt
      have hleast' : ∀ k (hk : k < j),
          (ps.get ⟨k, Nat.lt_trans hk hj⟩).target ≠ cp :=
        fun k hk => hleast (k + 1) (Nat.succ_lt_succ hk)
      simp only [updatePortsLoop]
      rw [if_neg hp, ih j hj htgt' hleast']
      rfl

/-- Whether it updated an existing binding or appended a new one, the
result of the override step contains a binding carrying the override's
host port and the parsed container port. -/
theorem updateOrAppendPorts_mem (hostPort : String) (cp : Nat)
    (ports : List ServicePortConfig) :
    ∃ p ∈ updateOrAppendPorts hostPort cp ports,
      p.published = hostPort ∧ p.target = cp := by
  induction ports with
  | nil =>
    refine ⟨⟨hostPort, cp, "tcp"⟩, ?_, rfl, rfl⟩
    simp [updateOrAppendPorts, updatePortsLoop]
  | cons p ps ih =>
    by_cases hp : p.target = cp
    · refine ⟨{ p with published := hostPort }, ?_, rfl, hp⟩
      have : updateOrAppendPorts hostPort cp (p :: ps) =
          { p with published := hostPort } :: ps := by
        simp only [updateOrAppendPorts, updatePortsLoop]
        rw [if_pos hp]
      rw [this]
      exact List.mem_cons_self _ _
    · obtain ⟨q, hq, hqp, hqt⟩ := ih
      have hc : updateOrAppendPorts hostPort cp (p :: ps) =
          p :: updateOrAppendPorts hostPort cp ps := by
        simp only [updateOrAppendPorts, updatePortsLoop]
        rw [if_neg hp]
        cases h2 : updatePortsLoop hostPort cp ps with
        | some ps2 => rfl
        | none => simp
      rw [hc]
      exact ⟨q, List.mem_cons_of_mem p hq, hqp, hqt⟩

/-- C4: applying one port override whose service is in the topology and
whose container-port numeral is in `uint32` range: when an existing
binding targets the override's container port, only the first such
binding has its published port replaced — same position, same target,
same protocol, all other bindings and services untouched; when none
does, the new binding {published = hostPort, target = containerPort,
protocol = tcp} is appended after the existing bindings. Nothing is
reported missing. -/
theorem applyPortMappings_present_spec (proj : Project) (m : PortMapping)
    (service : ServiceConfig) (v : Nat)
    (hs : lookupA proj.services m.serviceName = some service)
    (hdig : isDigitStr m.containerPort = true)
    (hv : digitsToNat m.containerPort.data = v)
    (hlt : v < 4294967296) :
    (applyPortMappings proj [m]).2 = [] ∧
    (∀ n, n ≠ m.serviceName →
      lookupA (applyPortMappings proj [m]).1.services n =
        lookupA proj.services n) ∧
    ((∀ p ∈ service.ports, p.target ≠ v) →
      lookupA (applyPortMappings proj [m]).1.services m.serviceName =
        some { service with ports :=
          service.ports ++ [⟨m.hostPort, v, "tcp"⟩] }) ∧
    (∀ i (hi : i < service.ports.length),
      (service.ports.get ⟨i, hi⟩).target = v →
      (∀ j (hj : j < i), (service.ports.get ⟨j, Nat.lt_trans hj hi⟩).target ≠ v) →
      lookupA (applyPortMappings proj [m]).1.services m.serviceName =
        some { service with ports :=
          (service.ports.set i
            { service.ports.get ⟨i, hi⟩ with published := m.hostPort }) }) := by
  have hcp : goParseUintVal 4294967295 m.containerPort = v := by
    rw [goParseUintVal_digits 4294967295 m.containerPort hdig, hv,
      if_pos (by omega)]
  have hkey : applyPortMappings proj [m] =
      ({ proj with services := (setKey proj.services m.serviceName
          { service with
              ports := updateOrAppendPorts m.hostPort v service.ports }) }, []) := by
    rw [applyPortMappings_cons_some proj m [] service hs, hcp]
    rfl
  refine ⟨?_, ?_, ?_, ?_⟩
  · rw [hkey]
  · intro n hn
    simp only [hkey]
    rw [lookupA_setKey, if_neg (fun hh => hn hh.symm)]
  · intro hnone
    simp only [hkey]
    rw [lookupA_setKey, if_pos rfl]
    simp only [updateOrAppendPorts,
      updatePortsLoop_none m.hostPort v service.ports hnone]
  · intro i hi htgt hleast
    simp only [hkey]
    rw [lookupA_setKey, if_pos rfl]
    simp only [updateOrAppendPorts,
      updatePortsLoop_found m.hostPort v service.ports i hi htgt hleast]

/-- Closed instance discharging the hypotheses of
`applyPortMappings_present_spec`: override web:9090:80 against a
topology whose `web` service publishes 8080:80. -/
theorem applyPortMappings_present_spec_witness :
    lookupA [("web", (⟨[⟨"8080", 80, "tcp"⟩], "wr"⟩ : ServiceConfig))] "web" =
      some ⟨[⟨"8080", 80, "tcp"⟩], "wr"⟩ ∧
    isDigitStr "80" = true ∧
    digitsToNat "80".data = 80 ∧
    80 < 4294967296 ∧
    ((applyPortMappings ⟨"p", [("web", ⟨[⟨"8080", 80, "tcp"⟩], "wr"⟩)], "nw", "vl", "rs"⟩
        [⟨"web", "9090", "80"⟩]).2 = [] ∧
     (∀ n, n ≠ "web" →
       lookupA (applyPortMappings
           ⟨"p", [("web", ⟨[⟨"8080", 80, "tcp"⟩], "wr"⟩)], "nw", "vl", "rs"⟩
           [⟨"web", "9090", "80"⟩]).1.services n =
         lookupA [("web", (⟨[⟨"8080", 80, "tcp"⟩], "wr"⟩ : ServiceConfig))] n) ∧
     ((∀ p ∈ (⟨[⟨"8080", 80, "tcp"⟩], "wr"⟩ : ServiceConfig).ports, p.target ≠ 80) →
       lookupA (applyPortMappings
           ⟨"p", [("web", ⟨[⟨"8080", 80, "tcp"⟩], "wr"⟩)], "nw", "vl", "rs"⟩
           [⟨"web", "9090", "80"⟩]).1.services "web" =
         some { (⟨[⟨"8080", 80, "tcp"⟩], "wr"⟩ : ServiceConfig) with ports :=
           (⟨[⟨"8080", 80, "tcp"⟩], "wr"⟩ : ServiceConfig).ports ++
             [⟨"9090", 80, "tcp"⟩] }) ∧
     (∀ i (hi : i < (⟨[⟨"8080", 80, "tcp"⟩], "wr"⟩ : ServiceConfig).ports.length),
       ((⟨[⟨"8080", 80, "tcp"⟩], "wr"⟩ : ServiceConfig).ports.get ⟨i, hi⟩).target = 80 →
       (∀ j (hj : j < i),
         ((⟨[⟨"8080", 80, "tcp"⟩], "wr"⟩ : ServiceConfig).ports.get
           ⟨j, Nat.lt_trans hj hi⟩).target ≠ 80) →
       lookupA (applyPortMappings
           ⟨"p", [("web", ⟨[⟨"8080", 80, "tcp"⟩], "wr"⟩)], "nw", "vl", "rs"⟩
           [⟨"web", "9090", "80"⟩]).1.services "web" =
         some { (⟨[⟨"8080", 80, "tcp"⟩], "wr"⟩ : ServiceConfig) with ports :=
           ((⟨[⟨"8080", 80, "tcp"⟩], "wr"⟩ : ServiceConfig).ports.set i
             { (⟨[⟨"8080", 80, "tcp"⟩], "wr"⟩ : ServiceConfig).ports.get ⟨i, hi⟩ with
                 published := "9090" }) })) :=
  ⟨rfl, by decide, by decide, by decide,
   applyPortMappings_present_spec
     ⟨"p", [("web", ⟨[⟨"8080", 80, "tcp"⟩], "wr"⟩)], "nw", "vl", "rs"⟩
     ⟨"web", "9090", "80"⟩ ⟨[⟨"8080", 80, "tcp"⟩], "wr"⟩ 80
     rfl (by decide) (by decide) (by decide)⟩

/-- C10: a port-override token whose container-port numeral is at least
2^32 but below 2^63 passes the parser (its host-port numeral being in
range too), yet `applyPortMappings` discards `ParseUint`'s 32-bit range
error, so the binding it creates or updates for the named service
carries the saturated target 4294967295, not the written value. -/
theorem portOverride_saturates_uint32 (tok svcN hostS contS : String)
    (proj : Project) (service : ServiceConfig)
    (hm : portMappingRegexMatch tok = some (svcN, hostS, contS))
    (hh : digitsToNat hostS.data < 9223372036854775808)
    (hlo : 4294967296 ≤ digitsToNat contS.data)
    (hhi : digitsToNat contS.data < 9223372036854775808)
    (hs : lookupA proj.services svcN = some service) :
    parsePortMapping tok = .ok ⟨svcN, hostS, contS⟩ ∧
    goParseUintVal 4294967295 contS = 4294967295 ∧
    (∃ svcNew,
      lookupA (applyPortMappings proj [⟨svcN, hostS, contS⟩]).1.services svcN =
        some svcNew ∧
      ∃ p ∈ svcNew.ports, p.published = hostS ∧ p.target = 4294967295) := by
  obtain ⟨hdb, hdc⟩ := portMappingRegexMatch_digits tok svcN hostS contS hm
  have hsat : goParseUintVal 4294967295 contS = 4294967295 := by
    rw [goParseUintVal_digits 4294967295 contS hdc, if_neg (by omega)]
  refine ⟨parsePortMapping_eq_ok tok svcN hostS contS hm (by omega) (by omega),
    hsat, ?_⟩
  have hkey : applyPortMappings proj [(⟨svcN, hostS, contS⟩ : PortMapping)] =
      ({ proj with services := (setKey proj.services svcN
          { service with
              ports := updateOrAppendPorts hostS 4294967295 service.ports }) }, []) := by
    rw [applyPortMappings_cons_some proj ⟨svcN, hostS, contS⟩ [] service hs]
    simp only [hsat]
    rfl
  refine ⟨{ service with
      ports := updateOrAppendPorts hostS 4294967295 service.ports }, ?_, ?_⟩
  · simp only [hkey]
    rw [lookupA_setKey, if_pos rfl]
  · exact updateOrAppendPorts_mem hostS 4294967295 service.ports

/-- Closed instance discharging the hypotheses of
`portOverride_saturates_uint32` at the token web:1:4294967296. -/
theorem portOverride_saturates_uint32_witness :
    portMappingRegexMatch "web:1:4294967296" = some ("web", "1", "4294967296") ∧
    digitsToNat ("1" : String).data < 9223372036854775808 ∧
    4294967296 ≤ digitsToNat ("4294967296" : String).data ∧
    digitsToNat ("4294967296" : String).data < 9223372036854775808 ∧
    lookupA [("web", (⟨[], "wr"⟩ : ServiceConfig))] "web" = some ⟨[], "wr"⟩ ∧
    (parsePortMapping "web:1:4294967296" = .ok ⟨"web", "1", "4294967296"⟩ ∧
     goParseUintVal 4294967295 "4294967296" = 4294967295 ∧
     (∃ svcNew,
       lookupA (applyPortMappings ⟨"p", [("web", ⟨[], "wr"⟩)], "nw", "vl", "rs"⟩
           [⟨"web", "1", "4294967296"⟩]).1.services "web" = some svcNew ∧
       ∃ p ∈ svcNew.ports, p.published = "1" ∧ p.target = 4294967295)) :=
  ⟨rfl, by decide, by decide, by decide, rfl,
   portOverride_saturates_uint32 "web:1:4294967296" "web" "1" "4294967296"
     ⟨"p", [("web", ⟨[], "wr"⟩)], "nw", "vl", "rs"⟩ ⟨[], "wr"⟩
     rfl (by decide) (by decide) (by decide) rfl⟩

/-- C6: an override whose service name is absent from the filtered
topology is recorded in `missingNames` and contributes nothing to the
topology — the remaining overrides are processed exactly as if it were
not there; and every such absent-service override in the list, wherever
it sits, has its name in the returned `missingNames`. -/
theorem applyPortMappings_missingService_spec (proj : Project) (m : PortMapping)
    (ms : List PortMapping)
    (h : lookupA proj.services m.serviceName = none) :
    applyPortMappings proj (m :: ms) =
      ((applyPortMappings proj ms).1,
        m.serviceName :: (applyPortMappings proj ms).2) ∧
    (∀ m' ∈ m :: ms, lookupA proj.services m'.serviceName = none →
      m'.serviceName ∈ (applyPortMappings proj (m :: ms)).2) :=
  ⟨applyPortMappings_cons_none proj m ms h,
   mem_applyPortMappings_missing (m :: ms) proj⟩

/-- Closed instance discharging the hypothesis of
`applyPortMappings_missingService_spec`: the override names `ghost`,
which is not in the topology. -/
theorem applyPortMappings_missingService_spec_witness :
    lookupA [("web", (⟨[], "r"⟩ : ServiceConfig))] "ghost" = none ∧
    (applyPortMappings ⟨"p", [("web", ⟨[], "r"⟩)], "nw", "vl", "rs"⟩
        (⟨"ghost", "1", "2"⟩ :: [⟨"web", "9090", "80"⟩]) =
      ((applyPortMappings ⟨"p", [("web", ⟨[], "r"⟩)], "nw", "vl", "rs"⟩
          [⟨"web", "9090", "80"⟩]).1,
        "ghost" :: (applyPortMappings ⟨"p", [("web", ⟨[], "r"⟩)], "nw", "vl", "rs"⟩
          [⟨"web", "9090", "80"⟩]).2) ∧
     (∀ m' ∈ (⟨"ghost", "1", "2"⟩ : PortMapping) :: [⟨"web", "9090", "80"⟩],
        lookupA [("web", (⟨[], "r"⟩ : ServiceConfig))] m'.serviceName = none →
        m'.serviceName ∈ (applyPortMappings ⟨"p", [("web", ⟨[], "r"⟩)], "nw", "vl", "rs"⟩
          (⟨"ghost", "1", "2"⟩ :: [⟨"web", "9090", "80"⟩])).2)) :=
  ⟨by decide,
   applyPortMappings_missingService_spec
     ⟨"p", [("web", ⟨[], "r"⟩)], "nw", "vl", "rs"⟩
     ⟨"ghost", "1", "2"⟩ [⟨"web", "9090", "80"⟩] (by decide)⟩
